import Mathlib

/-!
# musikcube playback transport

A shallow embedding of `src/core/playback/Transport.cpp`.

* A `Player*` is a `Player` handle: the address of the object together with the
  immutable URL it was constructed with (what `GetUrl()` returns).
* `double` and `float` values (volume, seconds) are `Double` values: not-a-number,
  an infinity or a finite number; comparisons are those of C++.
* Every call the transport makes on a collaborator (a player method, `new`,
  `delete`, a signal it raises, the state mutex, `boost::async`) is appended to
  `Transport.trace` in program order.  The `musik::debug` log lines are left out.
-/

namespace Musikcube

/-- A value of the C++ types `double` and `float`: not-a-number, an infinity or a
finite number. The two zeros are not told apart (they compare equal), and a finite
`float` is a finite `double`. -/
inductive Double where
  | nan
  | negInf
  | fin (q : ℚ)
  | posInf
  deriving DecidableEq, Repr

instance : OfNat Double n := ⟨Double.fin n⟩

namespace Double

/-- The comparison `a < b` of C++: false as soon as one side is not a number. -/
def lt : Double → Double → Bool
  | fin a, fin b => decide (a < b)
  | negInf, fin _ => true
  | negInf, posInf => true
  | fin _, posInf => true
  | _, _ => false

/-- The comparison `a == b` of C++: false as soon as one side is not a number. -/
def eq : Double → Double → Bool
  | nan, _ => false
  | _, nan => false
  | a, b => decide (a = b)

/-- The comparison `a != b` of C++. -/
def ne (a b : Double) : Bool :=
  !(eq a b)

/-- The comparison `a <= b` of C++. -/
def le (a b : Double) : Bool :=
  lt a b || eq a b

/-- Modelled from the spec: the `min` that `Transport::SetVolume` uses is not defined
in the embedded files; `max(0, min(1.0, volume))` only compiles with the comparison
macros, here `(((a) < (b)) ? (a) : (b))`, which clamp as the spec says. -/
def min (a b : Double) : Double :=
  if lt a b then a else b

/-- Modelled from the spec: the macro `max`, `(((a) > (b)) ? (a) : (b))`, the
companion of `min`. -/
def max (a b : Double) : Double :=
  if lt b a then a else b

/-- The number of binary digits of `n`, found in at most `fuel` halvings. -/
def bitLengthAux : Nat → Nat → Nat
  | 0, _ => 0
  | fuel + 1, n => if n = 0 then 0 else bitLengthAux fuel (n / 2) + 1

/-- The number of binary digits of `n`. -/
def bitLength (n : Nat) : Nat :=
  bitLengthAux n n

/-- The `float` nearest to the positive ratio `num / den` (IEEE 754 single
precision: 24 binary digits, exponents from -126 to 127, round to nearest with
ties to even, overflow to infinity). -/
def roundRatio (num den : Nat) : Double :=
  let e0 : Int := (bitLength num : Int) - (bitLength den : Int)
  let fits : Bool :=
    if 0 ≤ e0 then decide (2 ^ e0.toNat * den ≤ num) else decide (den ≤ num * 2 ^ (-e0).toNat)
  let e : Int := Max.max (if fits then e0 else e0 - 1) (-126)
  let N : Nat := if e ≤ 23 then num * 2 ^ (23 - e).toNat else num
  let D : Nat := if e ≤ 23 then den else den * 2 ^ (e - 23).toNat
  let f := N / D
  let r := N % D
  let n := if 2 * r < D then f else if D < 2 * r then f + 1 else if f % 2 = 0 then f else f + 1
  if 127 < e ∨ (e = 127 ∧ 2 ^ 24 ≤ n) then posInf
  else fin ((n : ℚ) * 2 ^ (e - 23))

/-- The quotient `x / d` of `float` arithmetic, for a `float` `x` and a positive
whole `float` `d`. -/
def floatDiv (x : Double) (d : Nat) : Double :=
  match x with
  | nan => nan
  | posInf => posInf
  | negInf => negInf
  | fin q =>
    if q.num = 0 then fin 0
    else
      match roundRatio q.num.natAbs (q.den * d) with
      | fin r => fin (if 0 < q.num then r else -r)
      | posInf => if 0 < q.num then posInf else negInf
      | other => other

end Double

/-- The `Transport::PlaybackState` enumeration. -/
inductive PlaybackState where
  | PlaybackStopped
  | PlaybackPaused
  | PlaybackPlaying
  deriving DecidableEq, Repr

/-- The `Transport::StreamEventType` enumeration. -/
inductive StreamEventType where
  | StreamScheduled
  | StreamPlaying
  | StreamAlmostDone
  | StreamFinished
  | StreamStopped
  | StreamError
  deriving DecidableEq, Repr

/-- A `Player*`: the address of a player object and the URL of that object. -/
structure Player where
  ptr : Nat
  url : String
  deriving DecidableEq, Repr

/-- One interaction of the transport with the outside, in program order. -/
inductive Obs where
  /-- A `boost::recursive_mutex::scoped_lock lock(this->stateMutex)` is entered. -/
  | lock
  /-- The scoped lock goes out of scope. -/
  | unlock
  /-- Call of `new Player(url, volume, this->output)`. -/
  | create (p : Player) (volume : Double)
  /-- The five `connect` calls of `StartWithPlayer`. -/
  | connect (p : Player)
  /-- Call of `p->SetVolume(volume)`. -/
  | setVolume (p : Player) (volume : Double)
  /-- Call of `p->Play()`. -/
  | play (p : Player)
  /-- Call of `p->Pause()`. -/
  | pause (p : Player)
  /-- Call of `p->Resume()`. -/
  | resume (p : Player)
  /-- Call of `p->SetPosition(seconds)`. -/
  | setPosition (p : Player) (seconds : Double)
  /-- Execution of `delete p`. -/
  | delete (p : Player)
  /-- Signal `this->StreamEvent(type, url)`. -/
  | streamEvent (type : StreamEventType) (url : String)
  /-- Signal `this->PlaybackEvent(state)`. -/
  | playbackEvent (state : PlaybackState)
  /-- Signal `this->VolumeChanged()`. -/
  | volumeChanged
  /-- Signal `this->TimeChanged(seconds)`. -/
  | timeChanged (seconds : Double)
  /-- Task `boost::async(boost::bind(&Transport::RemoveActive, this, p))` is scheduled. -/
  | async (p : Player)
  deriving DecidableEq, Repr

/-- The `Transport` object: its four data members, the allocator's next free
address and the trace of interactions so far. -/
structure Transport where
  volume : Double
  state : PlaybackState
  nextPlayer : Option Player
  active : List Player
  fresh : Nat
  trace : List Obs
  deriving DecidableEq, Repr

namespace Transport

open PlaybackState StreamEventType

/-- Append one interaction to the trace. -/
def emit (t : Transport) (o : Obs) : Transport :=
  { t with trace := t.trace ++ [o] }

/-- Append a run of interactions to the trace. -/
def emits (t : Transport) (os : List Obs) : Transport :=
  { t with trace := t.trace ++ os }

/-- The interactions that happened between `t` and a later `t'`. -/
def raised (t t' : Transport) : List Obs :=
  t'.trace.drop t.trace.length

/-- Allocation `new Player(url, this->volume, this->output)`: a player at an address that
no live player has. Every address is handed out once: an address that was freed
and is handed out again, while a dangling pointer to it is still compared, is not
represented. -/
def newPlayer (t : Transport) (url : String) : Player × Transport :=
  let p : Player := { ptr := t.fresh, url := url }
  (p, { t with fresh := t.fresh + 1, trace := t.trace ++ [Obs.create p t.volume] })

/-- Execution of `delete q` for a pointer that may be `NULL` (then nothing happens). -/
def deletePtr (t : Transport) (q : Option Player) : Transport :=
  match q with
  | none => t
  | some p => t.emit (Obs.delete p)

/-- Constructor `Transport::Transport()`. -/
def init : Transport :=
  { volume := 1, state := PlaybackStopped, nextPlayer := none, active := [],
    fresh := 0, trace := [] }

/-- Method `Transport::SetPlaybackState`. -/
def SetPlaybackState (t : Transport) (state : PlaybackState) : Transport :=
  let changed := false
  let t := t.emit Obs.lock
  let t := { t with state := state }
  let t := t.emit Obs.unlock
  if changed then t.emit (Obs.playbackEvent state) else t

/-- Method `Transport::RaiseStreamEvent`. -/
def RaiseStreamEvent (t : Transport) (type : StreamEventType) (player : Player) : Transport :=
  t.emit (Obs.streamEvent type player.url)

/-- Method `Transport::GetPlaybackState`. -/
def GetPlaybackState (t : Transport) : PlaybackState × Transport :=
  let t := t.emit Obs.lock
  (t.state, t.emit Obs.unlock)

/-- Method `Transport::PrepareNextTrack`. -/
def PrepareNextTrack (t : Transport) (trackUrl : String) : Transport :=
  let t := t.emit Obs.lock
  let (p, t) := t.newPlayer trackUrl
  let t := { t with nextPlayer := some p }
  t.emit Obs.unlock

/-- Method `Transport::StartWithPlayer`; `none` is the `NULL` pointer. -/
def StartWithPlayer (t : Transport) (newPlayer : Option Player) : Transport :=
  match newPlayer with
  | none => t
  | some p =>
    let t := t.emit Obs.lock
    let t := if some p ≠ t.nextPlayer then t.deletePtr t.nextPlayer else t
    let t := { t with nextPlayer := none }
    let t := t.emit (Obs.connect p)
    let t := { t with active := p :: t.active }
    let t := t.emit (Obs.setVolume p t.volume)
    let t := t.emit (Obs.play p)
    let t := t.emit Obs.unlock
    t.RaiseStreamEvent StreamScheduled p

/-- Method `Transport::Start`. -/
def Start (t : Transport) (url : String) : Transport :=
  let (p, t) := t.newPlayer url
  t.StartWithPlayer (some p)

/-- Method `Transport::Stop`. -/
def Stop (t : Transport) : Transport :=
  let t := t.emit Obs.lock
  let t := t.deletePtr t.nextPlayer
  let t := { t with nextPlayer := none }
  let toDelete := t.active
  let t := { t with active := [] }
  let t := t.emit Obs.unlock
  let t := t.emits (toDelete.map Obs.delete)
  let t := { t with active := [] }
  t.SetPlaybackState PlaybackStopped

/-- Method `Transport::Pause`. -/
def Pause (t : Transport) : Bool × Transport :=
  let t := t.emit Obs.lock
  let t := t.emits (t.active.map Obs.pause)
  let count := t.active.length
  let t := t.emit Obs.unlock
  if count ≠ 0 then (true, t.SetPlaybackState PlaybackPaused) else (false, t)

/-- Method `Transport::Resume`. -/
def Resume (t : Transport) : Bool × Transport :=
  let t := t.emit Obs.lock
  let t := t.emits (t.active.map Obs.resume)
  let count := t.active.length
  let t := t.emit Obs.unlock
  if count ≠ 0 then (true, t.SetPlaybackState PlaybackPlaying) else (false, t)

/-- Method `Transport::SetPosition`. -/
def SetPosition (t : Transport) (seconds : Double) : Transport :=
  let t := t.emit Obs.lock
  let t :=
    match t.active with
    | [] => t
    | front :: _ => (t.emit (Obs.setPosition front seconds)).emit (Obs.timeChanged seconds)
  t.emit Obs.unlock

/-- Method `Transport::Volume`. -/
def Volume (t : Transport) : Double :=
  t.volume

/-- Method `Transport::SetVolume`. -/
def SetVolume (t : Transport) (volume : Double) : Transport :=
  let oldVolume := t.volume
  let volume := Double.max 0 (Double.min 1 volume)
  let t := { t with volume := volume }
  let t := if Double.ne oldVolume t.volume then t.emit Obs.volumeChanged else t
  let t := t.emit Obs.lock
  let t :=
    match t.active with
    | [] => t
    | front :: _ => t.emit (Obs.setVolume front volume)
  t.emit Obs.unlock

/-- Method `Transport::OnPlaybackStarted`. -/
def OnPlaybackStarted (t : Transport) (player : Player) : Transport :=
  let t := t.RaiseStreamEvent StreamPlaying player
  t.SetPlaybackState PlaybackPlaying

/-- Method `Transport::OnPlaybackAlmostEnded`. -/
def OnPlaybackAlmostEnded (t : Transport) (player : Player) : Transport :=
  t.RaiseStreamEvent StreamAlmostDone player

/-- Method `Transport::RemoveActive`. -/
def RemoveActive (t : Transport) (player : Player) : Transport :=
  let t := t.emit Obs.lock
  let t :=
    if player ∈ t.active then
      let t := t.emit (Obs.delete player)
      { t with active := t.active.erase player }
    else t
  t.emit Obs.unlock

/-- Method `Transport::OnPlaybackFinished`. -/
def OnPlaybackFinished (t : Transport) (player : Player) : Transport :=
  let t := t.RaiseStreamEvent StreamFinished player
  let t :=
    if t.nextPlayer.isSome then t.StartWithPlayer t.nextPlayer
    else t.SetPlaybackState PlaybackStopped
  t.emit (Obs.async player)

/-- Method `Transport::OnPlaybackStopped`. -/
def OnPlaybackStopped (t : Transport) (player : Player) : Transport :=
  let t := t.RaiseStreamEvent StreamStopped player
  let t := t.SetPlaybackState PlaybackStopped
  t.emit (Obs.async player)

/-- Method `Transport::OnPlaybackError`. -/
def OnPlaybackError (t : Transport) (player : Player) : Transport :=
  let t := t.RaiseStreamEvent StreamError player
  let t := t.SetPlaybackState PlaybackStopped
  t.emit (Obs.async player)

end Transport

/-- One thing that can happen to a transport: a call of its control API, a
lifecycle signal of a player, or a scheduled `RemoveActive` task running. -/
inductive Action where
  | start (url : String)
  | prepareNextTrack (url : String)
  | stop
  | pause
  | resume
  | setPosition (seconds : Double)
  | setVolume (volume : Double)
  | getPlaybackState
  | started (p : Player)
  | almostEnded (p : Player)
  | finished (p : Player)
  | stopped (p : Player)
  | error (p : Player)
  | removeActive (p : Player)
  deriving DecidableEq, Repr

namespace Transport

/-- The transport after one action. -/
def step (t : Transport) : Action → Transport
  | .start url => t.Start url
  | .prepareNextTrack url => t.PrepareNextTrack url
  | .stop => t.Stop
  | .pause => t.Pause.2
  | .resume => t.Resume.2
  | .setPosition s => t.SetPosition s
  | .setVolume v => t.SetVolume v
  | .getPlaybackState => t.GetPlaybackState.2
  | .started p => t.OnPlaybackStarted p
  | .almostEnded p => t.OnPlaybackAlmostEnded p
  | .finished p => t.OnPlaybackFinished p
  | .stopped p => t.OnPlaybackStopped p
  | .error p => t.OnPlaybackError p
  | .removeActive p => t.RemoveActive p

/-- The transport after a sequence of actions, oldest first. -/
def run (t : Transport) (as : List Action) : Transport :=
  as.foldl step t

/-- Every player the transport holds was handed out by the allocator. -/
def Allocated (t : Transport) : Prop :=
  (∀ p ∈ t.active, p.ptr < t.fresh) ∧ ∀ p ∈ t.nextPlayer, p.ptr < t.fresh

end Transport

/-- A transport that plays `a.mp3`: constructed, `Start("a.mp3")`, and the Started
signal of that player handled. -/
def playingA : Transport :=
  Transport.init.run [Action.start "a.mp3", Action.started { ptr := 0, url := "a.mp3" }]

/-- A transport that was paused while playing `a.mp3` and then had `b.mp3`
prepared. -/
def pausedPrepared : Transport :=
  Transport.init.run [Action.start "a.mp3", Action.started { ptr := 0, url := "a.mp3" },
    Action.pause, Action.prepareNextTrack "b.mp3"]

/-- A transport with `a.mp3` started and `b.mp3` prepared. -/
def preparedB : Transport :=
  Transport.init.run [Action.start "a.mp3", Action.prepareNextTrack "b.mp3"]

/-- The players deleted in a run of interactions, in order. -/
def deleted (os : List Obs) : List Player :=
  os.filterMap fun o => match o with
    | Obs.delete p => some p
    | _ => none

/-- The stream events raised in a run of interactions, in order. -/
def streamEvents (os : List Obs) : List (StreamEventType × String) :=
  os.filterMap fun o => match o with
    | Obs.streamEvent ty url => some (ty, url)
    | _ => none

/-- The players on which a run of interactions acts (creation, a method call or
deletion), in order. -/
def touched (os : List Obs) : List Player :=
  os.filterMap fun o => match o with
    | Obs.create p _ => some p
    | Obs.connect p => some p
    | Obs.setVolume p _ => some p
    | Obs.play p => some p
    | Obs.pause p => some p
    | Obs.resume p => some p
    | Obs.setPosition p _ => some p
    | Obs.delete p => some p
    | _ => none

/-- No player is held twice: the active list has no duplicate entry and the
prepared player, if any, is not in the active list. -/
def Distinct (t : Transport) : Prop :=
  t.active.Nodup ∧ ∀ q ∈ t.nextPlayer, q ∉ t.active

namespace Transport

end Transport

/-- The players deleted in a run of interactions, each with whether the state lock
was held at its `delete`; `depth` is how often the (recursive) lock is held when
the run begins. -/
def deletesByLock (depth : Nat) : List Obs → List (Player × Bool)
  | [] => []
  | Obs.lock :: os => deletesByLock (depth + 1) os
  | Obs.unlock :: os => deletesByLock (depth - 1) os
  | Obs.delete p :: os => (p, decide (depth ≠ 0)) :: deletesByLock depth os
  | _ :: os => deletesByLock depth os

/-!
## The command window

A shallow embedding of `src/musikbox/app/window/CommandWindow.cpp`. The window
holds its transport by pointer; here the transport is a field of the window. Calls
on the output window and on the library indexer are logged in `CommandWindow.log`
(colour attributes are left out); the curses calls (`Clear`, `wprintw`, `Repaint`)
are left out.
-/

/-- A loaded plugin, as far as `ListPlugins` reads it. -/
structure Plugin where
  Name : String
  Version : String
  Author : String
  deriving DecidableEq, Repr

/-- What the command window reads from code outside this repository: the result of
`std::istringstream(s) >> t` for a `double` and for a `float` (whether the stream
did not fail, and the value it stores in `t`, which on failure is zero or the
largest value), the paths `Indexer::GetPaths` returns and the loaded plugins. -/
structure Env where
  readDouble : String → Bool × Double
  readFloat : String → Bool × Double
  paths : List String
  plugins : List Plugin

/-- One call of the command window on the output window or the indexer. -/
inductive WinObs where
  /-- Call of `output->WriteLine(text, ...)`. -/
  | writeLine (text : String)
  /-- Call of `library->Indexer()->AddPath(path)`. -/
  | addPath (path : String)
  /-- Call of `library->Indexer()->RemovePath(path)`. -/
  | removePath (path : String)
  /-- Call of `library->Indexer()->GetPaths(paths)`. -/
  | getPaths
  /-- Call of `library->Indexer()->Synchronize()`. -/
  | synchronize
  deriving DecidableEq, Repr

/-- The `CommandWindow` object: its transport, input buffer and paused flag, and
the log of its calls on the output window and the indexer. -/
structure CommandWindow where
  transport : Transport
  buffer : String
  paused : Bool
  log : List WinObs
  deriving DecidableEq, Repr

/-- Function template `tostr`: the flag `!(iss >> t).fail()` and the value of `t`
afterwards, `read` being the stream extraction, which overwrites `t`. -/
def tostr (read : String → Bool × Double) (s : String) : Bool × Double :=
  let iss := read s
  (iss.1, iss.2)

/-- Splitting at every blank, empty pieces kept. -/
def splitChars : List Char → List (List Char)
  | [] => [[]]
  | c :: cs =>
    if c = ' ' then [] :: splitChars cs
    else
      match splitChars cs with
      | [] => [[c]]
      | w :: ws => (c :: w) :: ws

/-- Library call `boost::algorithm::split(args, cmd, boost::is_any_of(" "))`. -/
def split (cmd : String) : List String :=
  (splitChars cmd.data).map String.mk

/-- Library call `boost::algorithm::join(args, " ")`. -/
def join (args : List String) : String :=
  String.intercalate " " args

/-- Function `removeUtf8Char`: the value without its last UTF-8 character. -/
def removeUtf8Char (value : String) : String :=
  String.mk value.data.dropLast

namespace CommandWindow

/-- Call of `this->output->WriteLine(text, ...)`. -/
def WriteLine (w : CommandWindow) (text : String) : CommandWindow :=
  { w with log := w.log ++ [WinObs.writeLine text] }

/-- Constructor `CommandWindow::CommandWindow`. -/
def new (transport : Transport) : CommandWindow :=
  WriteLine { transport := transport, buffer := "", paused := false, log := [] }
    "type \x27h\x27 or \x27help\x27\n"

/-- Method `CommandWindow::Seek`. -/
def Seek (w : CommandWindow) (env : Env) (args : List String) : CommandWindow :=
  match args with
  | [] => w
  | arg0 :: _ =>
    let (ok, newPosition) := tostr env.readDouble arg0
    if ok then { w with transport := w.transport.SetPosition newPosition } else w

/-- Method `CommandWindow::SetVolume(float)`. -/
def SetVolumeTo (w : CommandWindow) (volume : Double) : CommandWindow :=
  { w with transport := w.transport.SetVolume volume }

/-- Method `CommandWindow::SetVolume(const std::vector<std::string>&)`. -/
def SetVolume (w : CommandWindow) (env : Env) (args : List String) : CommandWindow :=
  match args with
  | [] => w
  | arg0 :: _ =>
    let (ok, newVolume) := tostr env.readFloat arg0
    if ok then w.SetVolumeTo (Double.floatDiv newVolume 100) else w

/-- Method `CommandWindow::Help`. -/
def Help (w : CommandWindow) : CommandWindow :=
  let w := w.WriteLine "help:\n"
  let w := w.WriteLine "  <tab> to switch between windows\n"
  let w := w.WriteLine "  pl [file]: play file at path"
  let w := w.WriteLine "  pa: toggle pause/resume"
  let w := w.WriteLine "  st: stop playing"
  let w := w.WriteLine "  plugins: list loaded plugins"
  let w := w.WriteLine "  v: <0 - 100>: set % volume"
  let w := w.WriteLine "  sk <seconds>: seek to <seconds> into track"
  let w := w.WriteLine "  addir <dir>: add a directory to be indexed"
  let w := w.WriteLine "  rmdir <dir>: remove indexed directory path"
  let w := w.WriteLine "  lsdirs: list all directories used by the indexer"
  let w := w.WriteLine "  rescan: rescan metadata in index paths"
  w.WriteLine "\n  <ctrl+d>: quit\n"

/-- Method `CommandWindow::PlayFile`. -/
def PlayFile (w : CommandWindow) (args : List String) : Bool × CommandWindow :=
  if args.length > 0 then
    let filename := join args
    (true, { w with transport := w.transport.Start filename })
  else (false, w)

/-- Method `CommandWindow::Pause`. -/
def Pause (w : CommandWindow) : CommandWindow :=
  if w.paused then
    let w := { w with transport := w.transport.Resume.2 }
    { w with paused := !w.paused }
  else
    let w := { w with transport := w.transport.Pause.2 }
    { w with paused := !w.paused }

/-- Method `CommandWindow::Stop`. -/
def Stop (w : CommandWindow) : CommandWindow :=
  { w with transport := w.transport.Stop }

/-- Method `CommandWindow::ListPlugins`. -/
def ListPlugins (w : CommandWindow) (env : Env) : CommandWindow :=
  env.plugins.foldl
    (fun w it =>
      w.WriteLine
        ("plugin:\n" ++ "  name: " ++ it.Name ++ " " ++ "v" ++ it.Version ++ "\n" ++
          "  author: " ++ it.Author ++ "\n"))
    w

/-- Method `CommandWindow::ProcessCommand`. -/
def ProcessCommand (w : CommandWindow) (env : Env) (cmd : String) : Bool × CommandWindow :=
  let args := split cmd
  let name := if args.length > 0 then args.headD "" else ""
  let args := args.tail
  if name = "plugins" then (true, w.ListPlugins env)
  else if name = "play" ∨ name = "pl" ∨ name = "p" then w.PlayFile args
  else if name = "addir" then
    let path := join args
    (true, { w with log := w.log ++ [WinObs.addPath path] })
  else if name = "rmdir" then
    let path := join args
    (true, { w with log := w.log ++ [WinObs.removePath path] })
  else if name = "lsdirs" then
    let w := { w with log := w.log ++ [WinObs.getPaths] }
    let paths := env.paths
    let w := w.WriteLine "paths:"
    let w := paths.foldl (fun w path => w.WriteLine ("  " ++ path)) w
    (true, w.WriteLine "")
  else if name = "rescan" ∨ name = "scan" ∨ name = "index" then
    (true, { w with log := w.log ++ [WinObs.synchronize] })
  else if name = "h" ∨ name = "help" then (true, w.Help)
  else if cmd = "pa" ∨ cmd = "pause" then (true, w.Pause)
  else if cmd = "s" ∨ cmd = "stop" then (true, w.Stop)
  else if name = "sk" ∨ name = "seek" then (true, w.Seek env args)
  else if name = "plugins" then (true, w.ListPlugins env)
  else if name = "v" ∨ name = "volume" then (true, w.SetVolume env args)
  else (false, w)

/-- Method `CommandWindow::Write`. -/
def Write (w : CommandWindow) (env : Env) (key : String) : CommandWindow :=
  if key = "^H" ∨ key = "^?" then { w with buffer := removeUtf8Char w.buffer }
  else if key = "^J" then
    let w := w.WriteLine ("> " ++ w.buffer ++ "\n")
    let (ok, w) := w.ProcessCommand env w.buffer
    let w :=
      if !ok then
        if w.buffer.length ≠ 0 then
          w.WriteLine ("illegal command: \x27" ++ w.buffer ++ "\x27\n")
        else w
      else w
    { w with buffer := "" }
  else if key.length = 1 then { w with buffer := w.buffer ++ key }
  else w

end CommandWindow

/-- An environment in which no number can be read, no path is indexed and no
plugin is loaded. -/
def bareEnv : Env :=
  { readDouble := fun _ => (false, 0), readFloat := fun _ => (false, 0), paths := [],
    plugins := [] }

/-- An environment whose streams read `"50"` as 50 and `"10"` as 10 and nothing
else. -/
def digitsEnv : Env :=
  { readDouble := fun s =>
      if s = "50" then (true, 50) else if s = "10" then (true, 10) else (false, 0),
    readFloat := fun s =>
      if s = "50" then (true, 50) else if s = "10" then (true, 10) else (false, 0),
    paths := [], plugins := [] }

/-- A run of pause commands on a command window; before each one the transport may
have changed in any way (`f` is that change). -/
def pauseCommands (w : CommandWindow) : List (Transport → Transport) → CommandWindow
  | [] => w
  | f :: fs => pauseCommands (CommandWindow.Pause { w with transport := f w.transport }) fs

/-!
## The category chooser

A shallow embedding of `BrowseOverlays::ShowCategoryChooser` in
`src/musikcube/app/overlay/BrowseOverlays.cpp`. Category values are the strings
their `ToString()` gives; title and width of the dialog are left out.
-/

/-- The static set `BLACKLIST`. -/
def BLACKLIST : List String :=
  ["bitrate", "channels", "lyrics", "path_id"]

/-- What the filter lambda of `ShowCategoryChooser` writes: the entries of the
adapter it captures (`AddEntry` appends one, `GetEntryCount` is their number) and
the local variable `index`. -/
structure ChooserVars where
  entries : List String
  index : Nat
  deriving DecidableEq, Repr

/-- The lambda that `ShowCategoryChooser` passes to `Filter`; `LAST_SELECTED` is the
static variable of that name. -/
def keepCategory (LAST_SELECTED : String) (s : ChooserVars) (str : String) :
    Bool × ChooserVars :=
  if str ∉ BLACKLIST then
    let s := { s with entries := s.entries ++ [str] }
    let s := if LAST_SELECTED = str then { s with index := s.entries.length - 1 } else s
    (true, s)
  else (false, s)

/-- Modelled from the spec: `Filter` of the query's value list is defined outside
the embedded files and the spec does not describe it; it is taken to call the
predicate once on each value, in list order, and to return the values for which
the predicate answered true. -/
def Filter {σ : Type} (keep : σ → String → Bool × σ) (values : List String) (s : σ) :
    List String × σ :=
  values.foldl
    (fun acc value =>
      let (kept, s) := keep acc.2 value
      (if kept then acc.1 ++ [value] else acc.1, s))
    ([], s)

/-- The list overlay that `ShowCategoryChooser` pushes: the entries of its adapter,
its selected index and the filtered list its selection callback captures. -/
structure CategoryOverlay where
  adapter : List String
  selectedIndex : Nat
  filtered : List String
  deriving DecidableEq, Repr

/-- Function `BrowseOverlays::ShowCategoryChooser`; `result` is what the
`AllCategoriesQuery` returned. -/
def ShowCategoryChooser (LAST_SELECTED : String) (result : List String) : CategoryOverlay :=
  let adapter : ChooserVars := { entries := [], index := 0 }
  let (filtered, vars) := Filter (keepCategory LAST_SELECTED) result adapter
  { adapter := vars.entries, selectedIndex := vars.index, filtered := filtered }

/-- The item-selected callback of the overlay: the new value of `LAST_SELECTED`,
which is also handed to `callback`; `none` when `At(index)` is out of range. -/
def itemSelected (d : CategoryOverlay) (index : Nat) : Option String :=
  d.filtered[index]?

open Transport PlaybackState StreamEventType

/-- C1: after `Stop()` the playback state is Stopped, the active list is empty
and the prepared slot is empty, whatever the transport looked like before. -/
theorem Stop_resets (t : Transport) :
    t.Stop.state = PlaybackStopped ∧ t.Stop.active = [] ∧ t.Stop.nextPlayer = none ∧
      t.Stop.GetPlaybackState.1 = PlaybackStopped := by
  simp [Stop, SetPlaybackState, GetPlaybackState, emit, emits, deletePtr]

/-- C2: gapless hand-off. With player `A` the only active player and the state
Playing, `PrepareNextTrack(urlB)`, then `A`'s Finished event, then the scheduled
`RemoveActive(A)` leave the new player for `urlB` as the sole active player, the
prepared slot empty and the state Playing; the state is Playing after each of the
three steps, and `StreamScheduled(urlB)` is raised while `A` is not yet deleted. -/
theorem gapless_handoff (t : Transport) (A : Player) (urlB : String)
    (hact : t.active = [A]) (hst : t.state = PlaybackPlaying) (hA : A.ptr < t.fresh) :
    let B : Player := { ptr := t.fresh, url := urlB }
    let t1 := t.PrepareNextTrack urlB
    let t2 := t1.OnPlaybackFinished A
    let t3 := t2.RemoveActive A
    B ≠ A ∧ t3.active = [B] ∧ t3.nextPlayer = none ∧ t3.state = PlaybackPlaying ∧
      t1.state = PlaybackPlaying ∧ t2.state = PlaybackPlaying ∧
      t1.active = [A] ∧ t1.nextPlayer = some B ∧ t2.active = [B, A] ∧
      raised t t2 =
        [Obs.lock, Obs.create B t.volume, Obs.unlock,
         Obs.streamEvent StreamFinished A.url,
         Obs.lock, Obs.connect B, Obs.setVolume B t.volume, Obs.play B, Obs.unlock,
         Obs.streamEvent StreamScheduled urlB, Obs.async A] ∧
      raised t2 t3 = [Obs.lock, Obs.delete A, Obs.unlock] := by
  intro B t1 t2 t3
  have hBA : B ≠ A := by
    intro h
    have : t.fresh = A.ptr := by rw [← h]
    omega
  refine ⟨hBA, ?_⟩
  simp [t3, t2, t1, B, PrepareNextTrack, OnPlaybackFinished, RemoveActive, StartWithPlayer,
    RaiseStreamEvent, newPlayer, emit, deletePtr, raised, hact, hst]
  have hBA2 : ¬ (({ ptr := t.fresh, url := urlB } : Player) = A) := hBA
  simp [List.erase_cons, hBA2]

/-- C2 at a concrete transport: `a.mp3` is playing, `b.mp3` is prepared, `a.mp3`
finishes and is removed. -/
theorem gapless_handoff_witness :
    playingA.active = [{ ptr := 0, url := "a.mp3" }] ∧
      playingA.state = PlaybackPlaying ∧
      (((playingA.PrepareNextTrack "b.mp3").OnPlaybackFinished
        { ptr := 0, url := "a.mp3" }).RemoveActive { ptr := 0, url := "a.mp3" }).active =
        [{ ptr := 1, url := "b.mp3" }] :=
  ⟨rfl, rfl, (gapless_handoff playingA { ptr := 0, url := "a.mp3" } "b.mp3" rfl rfl
    (by decide)).2.1⟩

/-- C3 fails as stated: with the transport Paused and `b.mp3` prepared, the
Finished event of `a.mp3` promotes the prepared player but the playback state
stays Paused, it does not become Playing. -/
theorem finished_while_paused_stays_paused :
    pausedPrepared.state = PlaybackPaused ∧
      pausedPrepared.nextPlayer = some { ptr := 1, url := "b.mp3" } ∧
      (pausedPrepared.OnPlaybackFinished { ptr := 0, url := "a.mp3" }).active =
        [{ ptr := 1, url := "b.mp3" }, { ptr := 0, url := "a.mp3" }] ∧
      (pausedPrepared.OnPlaybackFinished { ptr := 0, url := "a.mp3" }).state = PlaybackPaused ∧
      (pausedPrepared.OnPlaybackFinished { ptr := 0, url := "a.mp3" }).state ≠
        PlaybackPlaying := by
  decide

/-- C3 as amended: handling the Finished event of `p` raises exactly one
StreamFinished event, carrying the URL of `p`; if a player is prepared it is put at
the front of the active list, the prepared slot is emptied and the playback state
is left as it was; otherwise the playback state becomes Stopped. In both cases the
removal of `p` is scheduled last. -/
theorem OnPlaybackFinished_effect (t : Transport) (p : Player) :
    (streamEvents (raised t (t.OnPlaybackFinished p))).filter
        (fun e => e.1 = StreamFinished) = [(StreamFinished, p.url)] ∧
      (t.OnPlaybackFinished p).state =
        (if t.nextPlayer.isSome then t.state else PlaybackStopped) ∧
      (t.OnPlaybackFinished p).active =
        (match t.nextPlayer with
          | some q => q :: t.active
          | none => t.active) ∧
      (t.OnPlaybackFinished p).nextPlayer = none ∧
      (t.OnPlaybackFinished p).volume = t.volume ∧
      raised t (t.OnPlaybackFinished p) =
        Obs.streamEvent StreamFinished p.url ::
          (match t.nextPlayer with
            | some q =>
              [Obs.lock, Obs.connect q, Obs.setVolume q t.volume, Obs.play q, Obs.unlock,
               Obs.streamEvent StreamScheduled q.url]
            | none => [Obs.lock, Obs.unlock]) ++ [Obs.async p] := by
  cases h : t.nextPlayer <;>
    simp [OnPlaybackFinished, StartWithPlayer, SetPlaybackState, RaiseStreamEvent, emit,
      deletePtr, raised, streamEvents, h]

/-- C4: `Pause()` and `Resume()` return whether a player is active. With none
active the playback state is unchanged; otherwise every active player is paused
(resumed), in list order, and the state becomes Paused (Playing). The active list
and the prepared slot are never changed. -/
theorem Pause_Resume_effect (t : Transport) :
    (t.Pause.1 = !t.active.isEmpty ∧
      t.Pause.2.state = (if t.active = [] then t.state else PlaybackPaused) ∧
      t.Pause.2.active = t.active ∧ t.Pause.2.nextPlayer = t.nextPlayer ∧
      raised t t.Pause.2 =
        Obs.lock :: t.active.map Obs.pause ++ Obs.unlock ::
          (if t.active = [] then [] else [Obs.lock, Obs.unlock])) ∧
    (t.Resume.1 = !t.active.isEmpty ∧
      t.Resume.2.state = (if t.active = [] then t.state else PlaybackPlaying) ∧
      t.Resume.2.active = t.active ∧ t.Resume.2.nextPlayer = t.nextPlayer ∧
      raised t t.Resume.2 =
        Obs.lock :: t.active.map Obs.resume ++ Obs.unlock ::
          (if t.active = [] then [] else [Obs.lock, Obs.unlock])) := by
  cases h : t.active <;>
    simp [Pause, Resume, SetPlaybackState, emit, emits, raised, h]

/-- Only `SetVolume` writes the volume: any other action leaves it as it was. -/
theorem step_volume (t : Transport) (a : Action) :
    (t.step a).volume = t.volume ∨
      ∃ v, a = Action.setVolume v ∧ (t.step a).volume = Double.max 0 (Double.min 1 v) := by
  cases a with
  | setVolume v =>
    right
    refine ⟨v, rfl, ?_⟩
    cases h : t.active <;> cases hv : Double.ne t.volume (Double.max 0 (Double.min 1 v)) <;>
      simp [step, SetVolume, emit, h, hv]
  | start url =>
    left
    cases h : t.nextPlayer with
    | none =>
      simp [step, Start, StartWithPlayer, RaiseStreamEvent, newPlayer, emit, deletePtr, h]
    | some q =>
      by_cases hq : ({ ptr := t.fresh, url := url } : Player) = q <;>
        simp [step, Start, StartWithPlayer, RaiseStreamEvent, newPlayer, emit, deletePtr, h, hq]
  | prepareNextTrack url => left; simp [step, PrepareNextTrack, newPlayer, emit]
  | stop =>
    left
    cases h : t.nextPlayer <;> simp [step, Stop, SetPlaybackState, emit, emits, deletePtr, h]
  | pause => left; cases h : t.active <;> simp [step, Pause, SetPlaybackState, emit, emits, h]
  | resume => left; cases h : t.active <;> simp [step, Resume, SetPlaybackState, emit, emits, h]
  | setPosition s => left; cases h : t.active <;> simp [step, SetPosition, emit, h]
  | getPlaybackState => left; simp [step, GetPlaybackState, emit]
  | started p => left; simp [step, OnPlaybackStarted, SetPlaybackState, RaiseStreamEvent, emit]
  | almostEnded p => left; simp [step, OnPlaybackAlmostEnded, RaiseStreamEvent, emit]
  | finished p =>
    left
    cases h : t.nextPlayer <;>
      simp [step, OnPlaybackFinished, StartWithPlayer, SetPlaybackState, RaiseStreamEvent, emit,
        deletePtr, h]
  | stopped p => left; simp [step, OnPlaybackStopped, SetPlaybackState, RaiseStreamEvent, emit]
  | error p => left; simp [step, OnPlaybackError, SetPlaybackState, RaiseStreamEvent, emit]
  | removeActive p =>
    left
    by_cases h : p ∈ t.active <;> simp [step, RemoveActive, emit, h]

/-- The volume `SetVolume` stores is its argument passed through both macros. -/
theorem SetVolume_volume (t : Transport) (v : Double) :
    (t.SetVolume v).volume = Double.max 0 (Double.min 1 v) := by
  cases h : t.active <;> cases hv : Double.ne t.volume (Double.max 0 (Double.min 1 v)) <;>
    simp [SetVolume, emit, h, hv]

/-- On a finite number the two macros clamp into the unit interval. -/
theorem clamp_fin (q : ℚ) :
    Double.max 0 (Double.min 1 (Double.fin q)) = Double.fin (max 0 (min 1 q)) := by
  have h0 : (0 : Double) = Double.fin 0 := by
    show Double.fin ((0 : ℕ) : ℚ) = Double.fin 0
    simp
  have h1 : (1 : Double) = Double.fin 1 := by
    show Double.fin ((1 : ℕ) : ℚ) = Double.fin 1
    simp
  rw [h0, h1]
  by_cases hq1 : (1 : ℚ) < q
  · have hm : min 1 q = 1 := min_eq_left (le_of_lt hq1)
    simp [Double.max, Double.min, Double.lt, hq1, hm]
  · have hm : min 1 q = q := min_eq_right (not_lt.mp hq1)
    by_cases hq0 : q < 0
    · have hx : max 0 q = 0 := max_eq_left (le_of_lt hq0)
      simp [Double.max, Double.min, Double.lt, hq1, hq0, hm, hx]
    · have hx : max 0 q = q := max_eq_right (not_lt.mp hq0)
      simp [Double.max, Double.min, Double.lt, hq1, hq0, hm, hx]

/-- A clamped value that is a number lies between 0 and 1. -/
theorem clamp_mem_unit (v : Double) (hv : v ≠ Double.nan) :
    Double.le 0 (Double.max 0 (Double.min 1 v)) = true ∧
      Double.le (Double.max 0 (Double.min 1 v)) 1 = true := by
  cases v with
  | nan => exact absurd rfl hv
  | negInf => decide
  | posInf => decide
  | fin q =>
    rw [clamp_fin]
    have h0 : (0 : Double) = Double.fin 0 := by
      show Double.fin ((0 : ℕ) : ℚ) = Double.fin 0
      simp
    have h1 : (1 : Double) = Double.fin 1 := by
      show Double.fin ((1 : ℕ) : ℚ) = Double.fin 1
      simp
    rw [h0, h1]
    have hlo : (0 : ℚ) ≤ max 0 (min 1 q) := le_max_left _ _
    have hhi : max 0 (min 1 q) ≤ (1 : ℚ) := max_le zero_le_one (min_le_left _ _)
    constructor
    · rcases lt_or_eq_of_le hlo with h | h
      · simp [Double.le, Double.lt, h]
      · simp [Double.le, Double.lt, Double.eq, ← h]
    · rcases lt_or_eq_of_le hhi with h | h
      · simp [Double.le, Double.lt, h]
      · simp [Double.le, Double.lt, Double.eq, h]

/-- A volume between 0 and 1 stays there under any sequence of actions in which
`SetVolume` is never called with not-a-number. -/
theorem run_volume_mem_unit (as : List Action) (t : Transport)
    (hnan : ∀ x, Action.setVolume x ∈ as → x ≠ Double.nan)
    (h : Double.le 0 t.volume = true ∧ Double.le t.volume 1 = true) :
    Double.le 0 (t.run as).volume = true ∧ Double.le (t.run as).volume 1 = true := by
  induction as generalizing t with
  | nil => simpa [run] using h
  | cons a as ih =>
    have hs : Double.le 0 (t.step a).volume = true ∧ Double.le (t.step a).volume 1 = true := by
      rcases step_volume t a with h1 | ⟨v, ha, h1⟩
      · rw [h1]; exact h
      · rw [h1]
        exact clamp_mem_unit v (hnan v (by simp [ha]))
    have hrest : ∀ x, Action.setVolume x ∈ as → x ≠ Double.nan :=
      fun x hx => hnan x (List.mem_cons_of_mem _ hx)
    simpa [run] using ih (t.step a) hrest hs

/-- C5 at the failing input: `SetVolume` with not-a-number stores not-a-number,
which `Volume()` then returns and which is not in [0, 1], because both comparison
macros let it through. For every other value the stored volume is the clamped one:
`max(0, min(1, v))` is what is stored for any `v`, on a finite number it is the
usual clamp, on the infinities it is 1 and 0, and it lies in [0, 1]; the
constructor sets 1, and along every sequence of control calls, player signals and
removal tasks without such a `SetVolume` call the volume stays in [0, 1]. -/
theorem SetVolume_stores_NaN (t : Transport) (v : Double) (q : ℚ) (as : List Action) :
    (init.SetVolume Double.nan).volume = Double.nan ∧
      (init.SetVolume Double.nan).Volume = Double.nan ∧
      Double.le 0 (init.SetVolume Double.nan).Volume = false ∧
      Double.le (init.SetVolume Double.nan).Volume 1 = false ∧
      (t.SetVolume v).volume = Double.max 0 (Double.min 1 v) ∧
      (t.SetVolume v).Volume = Double.max 0 (Double.min 1 v) ∧
      Double.max 0 (Double.min 1 (Double.fin q)) = Double.fin (max 0 (min 1 q)) ∧
      Double.max 0 (Double.min 1 Double.posInf) = 1 ∧
      Double.max 0 (Double.min 1 Double.negInf) = 0 ∧
      (v ≠ Double.nan →
        Double.le 0 (t.SetVolume v).volume = true ∧
          Double.le (t.SetVolume v).volume 1 = true) ∧
      init.volume = 1 ∧
      ((∀ x, Action.setVolume x ∈ as → x ≠ Double.nan) →
        Double.le 0 (init.run as).volume = true ∧ Double.le (init.run as).volume 1 = true) := by
  have hset : (t.SetVolume v).volume = Double.max 0 (Double.min 1 v) := SetVolume_volume t v
  refine ⟨by decide, by decide, by decide, by decide, hset, hset, clamp_fin q, by decide,
    by decide, ?_, rfl, ?_⟩
  · intro hv
    rw [hset]
    exact clamp_mem_unit v hv
  · intro hnan
    exact run_volume_mem_unit as init hnan ⟨by decide, by decide⟩

/-- C6: `SetVolume(v)` raises the volume-changed signal once when the clamped value
differs from the stored volume (the comparison `!=` of C++) and not at all when
it equals it; for finite numbers that is the usual inequality; `SetVolume(2.0)`
on a fresh transport (volume 1.0) raises none. -/
theorem SetVolume_notifies (t : Transport) (v : Double) (a q : ℚ) :
    (raised t (t.SetVolume v)).count Obs.volumeChanged =
        (if Double.ne t.volume (Double.max 0 (Double.min 1 v)) then 1 else 0) ∧
      (t.volume = Double.fin a →
        (raised t (t.SetVolume (Double.fin q))).count Obs.volumeChanged =
          (if max 0 (min 1 q) = a then 0 else 1)) ∧
      (raised init (init.SetVolume 2)).count Obs.volumeChanged = 0 := by
  have hgen : ∀ w : Double, (raised t (t.SetVolume w)).count Obs.volumeChanged =
      (if Double.ne t.volume (Double.max 0 (Double.min 1 w)) then 1 else 0) := by
    intro w
    cases h : t.active <;> cases hv : Double.ne t.volume (Double.max 0 (Double.min 1 w)) <;>
      simp [SetVolume, emit, raised, h, hv]
  refine ⟨hgen v, ?_, by decide⟩
  intro ha
  rw [hgen, clamp_fin, ha]
  by_cases hq : max 0 (min 1 q) = a
  · simp [Double.ne, Double.eq, hq]
  · have hq2 : ¬ (a = max 0 (min 1 q)) := fun e => hq e.symm
    simp [Double.ne, Double.eq, hq, hq2]

/-- C7: on a freshly constructed transport, `Start(url)` followed by the Started
signal of the new player makes `GetPlaybackState()` return Playing; its Finished
signal with nothing prepared makes the state Stopped and schedules the removal,
and once that removal has run the active list is empty. -/
theorem start_play_finish (url : String) :
    init.state = PlaybackStopped ∧ init.active = [] ∧ init.nextPlayer = none ∧
      (init.Start url).active = [{ ptr := 0, url := url }] ∧
      ((init.Start url).OnPlaybackStarted { ptr := 0, url := url }).GetPlaybackState.1 =
        PlaybackPlaying ∧
      ((init.Start url).OnPlaybackStarted { ptr := 0, url := url }).nextPlayer = none ∧
      (((init.Start url).OnPlaybackStarted { ptr := 0, url := url }).OnPlaybackFinished
        { ptr := 0, url := url }).GetPlaybackState.1 = PlaybackStopped ∧
      raised ((init.Start url).OnPlaybackStarted { ptr := 0, url := url })
        (((init.Start url).OnPlaybackStarted { ptr := 0, url := url }).OnPlaybackFinished
          { ptr := 0, url := url }) =
        [Obs.streamEvent StreamFinished url, Obs.lock, Obs.unlock,
         Obs.async { ptr := 0, url := url }] ∧
      ((((init.Start url).OnPlaybackStarted { ptr := 0, url := url }).OnPlaybackFinished
        { ptr := 0, url := url }).RemoveActive { ptr := 0, url := url }).active = [] ∧
      ((((init.Start url).OnPlaybackStarted { ptr := 0, url := url }).OnPlaybackFinished
        { ptr := 0, url := url }).RemoveActive { ptr := 0, url := url }).state =
        PlaybackStopped := by
  simp [init, Start, StartWithPlayer, OnPlaybackStarted, OnPlaybackFinished, RemoveActive,
    GetPlaybackState, SetPlaybackState, RaiseStreamEvent, newPlayer, emit, deletePtr, raised]

/-- C8 at a failing input: with the player for `b.mp3` prepared,
`PrepareNextTrack("c.mp3")` installs the new player at the current volume and
starts nothing, but the player for `b.mp3` is not deleted although the transport
no longer refers to it. -/
theorem PrepareNextTrack_keeps_old_player_alive :
    preparedB.nextPlayer = some { ptr := 1, url := "b.mp3" } ∧
      (preparedB.PrepareNextTrack "c.mp3").nextPlayer = some { ptr := 2, url := "c.mp3" } ∧
      (preparedB.PrepareNextTrack "c.mp3").active = [{ ptr := 0, url := "a.mp3" }] ∧
      raised preparedB (preparedB.PrepareNextTrack "c.mp3") =
        [Obs.lock, Obs.create { ptr := 2, url := "c.mp3" } 1, Obs.unlock] ∧
      deleted (preparedB.PrepareNextTrack "c.mp3").trace = [] := by
  decide

/-- C9: `Start(url)` creates a player for `url` at the current volume, deletes a
stale prepared player, empties the prepared slot, puts the new player in front
of the players that were active, sets its volume and then calls `Play()` on it,
leaves the playback state alone and raises exactly one stream event,
StreamScheduled for `url`. State, active list and prepared slot are the same as
after `PrepareNextTrack(url)` followed by `StartWithPlayer` on the prepared
player. -/
theorem Start_effect (t : Transport) (url : String) (h : t.Allocated) :
    (t.Start url).active = { ptr := t.fresh, url := url } :: t.active ∧
      (t.Start url).nextPlayer = none ∧
      (t.Start url).state = t.state ∧
      (t.Start url).volume = t.volume ∧
      raised t (t.Start url) =
        Obs.create { ptr := t.fresh, url := url } t.volume :: Obs.lock ::
          ((match t.nextPlayer with
            | some q => [Obs.delete q]
            | none => []) ++
          [Obs.connect { ptr := t.fresh, url := url },
           Obs.setVolume { ptr := t.fresh, url := url } t.volume,
           Obs.play { ptr := t.fresh, url := url }, Obs.unlock,
           Obs.streamEvent StreamScheduled url]) ∧
      streamEvents (raised t (t.Start url)) = [(StreamScheduled, url)] ∧
      ((t.PrepareNextTrack url).StartWithPlayer (t.PrepareNextTrack url).nextPlayer).state =
        (t.Start url).state ∧
      ((t.PrepareNextTrack url).StartWithPlayer (t.PrepareNextTrack url).nextPlayer).active =
        (t.Start url).active ∧
      ((t.PrepareNextTrack url).StartWithPlayer (t.PrepareNextTrack url).nextPlayer).nextPlayer =
        (t.Start url).nextPlayer := by
  cases hn : t.nextPlayer with
  | none =>
    simp [Start, PrepareNextTrack, StartWithPlayer, RaiseStreamEvent, newPlayer, emit,
      deletePtr, raised, streamEvents, hn]
  | some q =>
    have hq : q.ptr < t.fresh := h.2 q (by simp [hn])
    have hne : ¬ (({ ptr := t.fresh, url := url } : Player) = q) := by
      intro e
      have : t.fresh = q.ptr := by rw [← e]
      omega
    simp [Start, PrepareNextTrack, StartWithPlayer, RaiseStreamEvent, newPlayer, emit,
      deletePtr, raised, streamEvents, hn, hne]

/-- C9 at a concrete transport: `Start("c.mp3")` while `a.mp3` is active and
`b.mp3` is prepared. -/
theorem Start_effect_witness :
    pausedPrepared.Allocated ∧
      (pausedPrepared.Start "c.mp3").active =
        [{ ptr := 2, url := "c.mp3" }, { ptr := 0, url := "a.mp3" }] ∧
      deleted (raised pausedPrepared (pausedPrepared.Start "c.mp3")) =
        [{ ptr := 1, url := "b.mp3" }] :=
  ⟨by unfold Allocated; decide,
   (Start_effect pausedPrepared "c.mp3" (by unfold Allocated; decide)).1,
   by decide⟩

/-- C10: on an active list without duplicates, `RemoveActive(p)` for a player that
is not active deletes nothing and leaves state, active list and prepared slot
as they are; for an active player it deletes `p` once and removes that entry,
the others keeping their order. A second `RemoveActive(p)` right after the first
changes nothing and deletes nothing. -/
theorem RemoveActive_effect (t : Transport) (p : Player) (hnd : t.active.Nodup) :
    (t.RemoveActive p).state = t.state ∧
      (t.RemoveActive p).nextPlayer = t.nextPlayer ∧
      (t.RemoveActive p).volume = t.volume ∧
      (t.RemoveActive p).active =
        (if p ∈ t.active then t.active.filter (fun q => q ≠ p) else t.active) ∧
      raised t (t.RemoveActive p) =
        (if p ∈ t.active then [Obs.lock, Obs.delete p, Obs.unlock]
          else [Obs.lock, Obs.unlock]) ∧
      ((t.RemoveActive p).RemoveActive p).state = (t.RemoveActive p).state ∧
      ((t.RemoveActive p).RemoveActive p).nextPlayer = (t.RemoveActive p).nextPlayer ∧
      ((t.RemoveActive p).RemoveActive p).volume = (t.RemoveActive p).volume ∧
      ((t.RemoveActive p).RemoveActive p).active = (t.RemoveActive p).active ∧
      raised (t.RemoveActive p) ((t.RemoveActive p).RemoveActive p) =
        [Obs.lock, Obs.unlock] := by
  by_cases hp : p ∈ t.active
  · have hnot : p ∉ t.active.erase p := fun hmem => (hnd.mem_erase_iff.mp hmem).1 rfl
    have hfil : t.active.erase p = t.active.filter (fun q => !decide (q = p)) := by
      rw [hnd.erase_eq_filter p]
      apply List.filter_congr
      intro x _
      by_cases hx : x = p <;> simp [hx]
    simp [RemoveActive, emit, raised, hp, hnot, ← hfil]
  · simp [RemoveActive, emit, raised, hp]

/-- C10 at a concrete transport: the finished player of `playingA` is removed
twice. -/
theorem RemoveActive_effect_witness :
    playingA.active.Nodup ∧
      (playingA.RemoveActive { ptr := 0, url := "a.mp3" }).active = [] ∧
      ((playingA.RemoveActive { ptr := 0, url := "a.mp3" }).RemoveActive
        { ptr := 0, url := "a.mp3" }).active = [] :=
  ⟨by decide,
   (RemoveActive_effect playingA { ptr := 0, url := "a.mp3" } (by decide)).2.2.2.1,
   ((RemoveActive_effect playingA { ptr := 0, url := "a.mp3" } (by decide)).2.2.2.2.2.2.2.2.1).trans
     (RemoveActive_effect playingA { ptr := 0, url := "a.mp3" } (by decide)).2.2.2.1⟩

/-- The active list after one action. -/
theorem step_active (t : Transport) (a : Action) :
    (t.step a).active =
      (match a with
        | .start url => { ptr := t.fresh, url := url } :: t.active
        | .stop => []
        | .finished _ =>
          (match t.nextPlayer with
            | some q => q :: t.active
            | none => t.active)
        | .removeActive p => t.active.erase p
        | _ => t.active) := by
  cases a with
  | start url =>
    cases h : t.nextPlayer with
    | none =>
      simp [step, Start, StartWithPlayer, RaiseStreamEvent, newPlayer, emit, deletePtr, h]
    | some q =>
      by_cases hq : ({ ptr := t.fresh, url := url } : Player) = q <;>
        simp [step, Start, StartWithPlayer, RaiseStreamEvent, newPlayer, emit, deletePtr, h, hq]
  | prepareNextTrack url => simp [step, PrepareNextTrack, newPlayer, emit]
  | stop =>
    cases h : t.nextPlayer <;> simp [step, Stop, SetPlaybackState, emit, emits, deletePtr, h]
  | pause => cases h : t.active <;> simp [step, Pause, SetPlaybackState, emit, emits, h]
  | resume => cases h : t.active <;> simp [step, Resume, SetPlaybackState, emit, emits, h]
  | setPosition s => cases h : t.active <;> simp [step, SetPosition, emit, h]
  | setVolume v =>
    cases h : t.active <;> cases hv : Double.ne t.volume (Double.max 0 (Double.min 1 v)) <;>
      simp [step, SetVolume, emit, h, hv]
  | getPlaybackState => simp [step, GetPlaybackState, emit]
  | started p => simp [step, OnPlaybackStarted, SetPlaybackState, RaiseStreamEvent, emit]
  | almostEnded p => simp [step, OnPlaybackAlmostEnded, RaiseStreamEvent, emit]
  | finished p =>
    cases h : t.nextPlayer <;>
      simp [step, OnPlaybackFinished, StartWithPlayer, SetPlaybackState, RaiseStreamEvent, emit,
        deletePtr, h]
  | stopped p => simp [step, OnPlaybackStopped, SetPlaybackState, RaiseStreamEvent, emit]
  | error p => simp [step, OnPlaybackError, SetPlaybackState, RaiseStreamEvent, emit]
  | removeActive p =>
    by_cases h : p ∈ t.active <;> simp [step, RemoveActive, emit, h, List.erase_of_not_mem]

/-- The prepared slot after one action. -/
theorem step_nextPlayer (t : Transport) (a : Action) :
    (t.step a).nextPlayer =
      (match a with
        | .start _ => none
        | .prepareNextTrack url => some { ptr := t.fresh, url := url }
        | .stop => none
        | .finished _ => none
        | _ => t.nextPlayer) := by
  cases a with
  | start url =>
    cases h : t.nextPlayer with
    | none =>
      simp [step, Start, StartWithPlayer, RaiseStreamEvent, newPlayer, emit, deletePtr, h]
    | some q =>
      by_cases hq : ({ ptr := t.fresh, url := url } : Player) = q <;>
        simp [step, Start, StartWithPlayer, RaiseStreamEvent, newPlayer, emit, deletePtr, h, hq]
  | prepareNextTrack url => simp [step, PrepareNextTrack, newPlayer, emit]
  | stop =>
    cases h : t.nextPlayer <;> simp [step, Stop, SetPlaybackState, emit, emits, deletePtr, h]
  | pause => cases h : t.active <;> simp [step, Pause, SetPlaybackState, emit, emits, h]
  | resume => cases h : t.active <;> simp [step, Resume, SetPlaybackState, emit, emits, h]
  | setPosition s => cases h : t.active <;> simp [step, SetPosition, emit, h]
  | setVolume v =>
    cases h : t.active <;> cases hv : Double.ne t.volume (Double.max 0 (Double.min 1 v)) <;>
      simp [step, SetVolume, emit, h, hv]
  | getPlaybackState => simp [step, GetPlaybackState, emit]
  | started p => simp [step, OnPlaybackStarted, SetPlaybackState, RaiseStreamEvent, emit]
  | almostEnded p => simp [step, OnPlaybackAlmostEnded, RaiseStreamEvent, emit]
  | finished p =>
    cases h : t.nextPlayer <;>
      simp [step, OnPlaybackFinished, StartWithPlayer, SetPlaybackState, RaiseStreamEvent, emit,
        deletePtr, h]
  | stopped p => simp [step, OnPlaybackStopped, SetPlaybackState, RaiseStreamEvent, emit]
  | error p => simp [step, OnPlaybackError, SetPlaybackState, RaiseStreamEvent, emit]
  | removeActive p => by_cases h : p ∈ t.active <;> simp [step, RemoveActive, emit, h]

/-- The allocator after one action: only `Start` and `PrepareNextTrack` allocate. -/
theorem step_fresh (t : Transport) (a : Action) :
    (t.step a).fresh =
      (match a with
        | .start _ => t.fresh + 1
        | .prepareNextTrack _ => t.fresh + 1
        | _ => t.fresh) := by
  cases a with
  | start url =>
    cases h : t.nextPlayer with
    | none =>
      simp [step, Start, StartWithPlayer, RaiseStreamEvent, newPlayer, emit, deletePtr, h]
    | some q =>
      by_cases hq : ({ ptr := t.fresh, url := url } : Player) = q <;>
        simp [step, Start, StartWithPlayer, RaiseStreamEvent, newPlayer, emit, deletePtr, h, hq]
  | prepareNextTrack url => simp [step, PrepareNextTrack, newPlayer, emit]
  | stop =>
    cases h : t.nextPlayer <;> simp [step, Stop, SetPlaybackState, emit, emits, deletePtr, h]
  | pause => cases h : t.active <;> simp [step, Pause, SetPlaybackState, emit, emits, h]
  | resume => cases h : t.active <;> simp [step, Resume, SetPlaybackState, emit, emits, h]
  | setPosition s => cases h : t.active <;> simp [step, SetPosition, emit, h]
  | setVolume v =>
    cases h : t.active <;> cases hv : Double.ne t.volume (Double.max 0 (Double.min 1 v)) <;>
      simp [step, SetVolume, emit, h, hv]
  | getPlaybackState => simp [step, GetPlaybackState, emit]
  | started p => simp [step, OnPlaybackStarted, SetPlaybackState, RaiseStreamEvent, emit]
  | almostEnded p => simp [step, OnPlaybackAlmostEnded, RaiseStreamEvent, emit]
  | finished p =>
    cases h : t.nextPlayer <;>
      simp [step, OnPlaybackFinished, StartWithPlayer, SetPlaybackState, RaiseStreamEvent, emit,
        deletePtr, h]
  | stopped p => simp [step, OnPlaybackStopped, SetPlaybackState, RaiseStreamEvent, emit]
  | error p => simp [step, OnPlaybackError, SetPlaybackState, RaiseStreamEvent, emit]
  | removeActive p => by_cases h : p ∈ t.active <;> simp [step, RemoveActive, emit, h]

/-- The trace only grows, and no action appends a playback-state-changed signal. -/
theorem step_trace (t : Transport) (a : Action) :
    ∃ os, (t.step a).trace = t.trace ++ os ∧ ∀ s, Obs.playbackEvent s ∉ os := by
  cases a with
  | start url =>
    cases h : t.nextPlayer with
    | none =>
      exact ⟨_, by
        simp [step, Start, StartWithPlayer, RaiseStreamEvent, newPlayer, emit, deletePtr, h]
        rfl, by simp⟩
    | some q =>
      by_cases hq : ({ ptr := t.fresh, url := url } : Player) = q
      · exact ⟨_, by
          simp [step, Start, StartWithPlayer, RaiseStreamEvent, newPlayer, emit, deletePtr, h, hq]
          rfl, by simp⟩
      · exact ⟨_, by
          simp [step, Start, StartWithPlayer, RaiseStreamEvent, newPlayer, emit, deletePtr, h, hq]
          rfl, by simp⟩
  | prepareNextTrack url =>
    exact ⟨_, by simp [step, PrepareNextTrack, newPlayer, emit]; rfl, by simp⟩
  | stop =>
    cases h : t.nextPlayer with
    | none =>
      exact ⟨_, by simp [step, Stop, SetPlaybackState, emit, emits, deletePtr, h]; rfl, by simp⟩
    | some q =>
      exact ⟨_, by simp [step, Stop, SetPlaybackState, emit, emits, deletePtr, h]; rfl, by simp⟩
  | pause =>
    cases h : t.active with
    | nil => exact ⟨_, by simp [step, Pause, SetPlaybackState, emit, emits, h]; rfl, by simp⟩
    | cons x xs =>
      exact ⟨_, by simp [step, Pause, SetPlaybackState, emit, emits, h]; rfl, by simp⟩
  | resume =>
    cases h : t.active with
    | nil => exact ⟨_, by simp [step, Resume, SetPlaybackState, emit, emits, h]; rfl, by simp⟩
    | cons x xs =>
      exact ⟨_, by simp [step, Resume, SetPlaybackState, emit, emits, h]; rfl, by simp⟩
  | setPosition s =>
    cases h : t.active with
    | nil => exact ⟨_, by simp [step, SetPosition, emit, h]; rfl, by simp⟩
    | cons x xs => exact ⟨_, by simp [step, SetPosition, emit, h]; rfl, by simp⟩
  | setVolume v =>
    cases h : t.active with
    | nil =>
      cases hv : Double.ne t.volume (Double.max 0 (Double.min 1 v))
      · exact ⟨_, by simp [step, SetVolume, emit, h, hv]; rfl, by simp⟩
      · exact ⟨_, by simp [step, SetVolume, emit, h, hv]; rfl, by simp⟩
    | cons x xs =>
      cases hv : Double.ne t.volume (Double.max 0 (Double.min 1 v))
      · exact ⟨_, by simp [step, SetVolume, emit, h, hv]; rfl, by simp⟩
      · exact ⟨_, by simp [step, SetVolume, emit, h, hv]; rfl, by simp⟩
  | getPlaybackState => exact ⟨_, by simp [step, GetPlaybackState, emit]; rfl, by simp⟩
  | started p =>
    exact ⟨_, by
      simp [step, OnPlaybackStarted, SetPlaybackState, RaiseStreamEvent, emit]; rfl, by simp⟩
  | almostEnded p =>
    exact ⟨_, by simp [step, OnPlaybackAlmostEnded, RaiseStreamEvent, emit]; rfl, by simp⟩
  | finished p =>
    cases h : t.nextPlayer with
    | none =>
      exact ⟨_, by
        simp [step, OnPlaybackFinished, StartWithPlayer, SetPlaybackState, RaiseStreamEvent,
          emit, deletePtr, h]
        rfl, by simp⟩
    | some q =>
      exact ⟨_, by
        simp [step, OnPlaybackFinished, StartWithPlayer, SetPlaybackState, RaiseStreamEvent,
          emit, deletePtr, h]
        rfl, by simp⟩
  | stopped p =>
    exact ⟨_, by
      simp [step, OnPlaybackStopped, SetPlaybackState, RaiseStreamEvent, emit]; rfl, by simp⟩
  | error p =>
    exact ⟨_, by
      simp [step, OnPlaybackError, SetPlaybackState, RaiseStreamEvent, emit]; rfl, by simp⟩
  | removeActive p =>
    by_cases h : p ∈ t.active
    · exact ⟨_, by simp [step, RemoveActive, emit, h]; rfl, by simp⟩
    · exact ⟨_, by simp [step, RemoveActive, emit, h]; rfl, by simp⟩

/-- No playback-state-changed signal enters the trace along a sequence of actions. -/
theorem run_no_playbackEvent (as : List Action) (t : Transport)
    (h : ∀ s, Obs.playbackEvent s ∉ t.trace) : ∀ s, Obs.playbackEvent s ∉ (t.run as).trace := by
  induction as generalizing t with
  | nil => simpa [run] using h
  | cons a as ih =>
    have hs : ∀ s, Obs.playbackEvent s ∉ (t.step a).trace := by
      obtain ⟨os, hos, hno⟩ := step_trace t a
      intro s
      rw [hos, List.mem_append]
      exact fun hm => hm.elim (h s) (hno s)
    simpa [run] using ih (t.step a) hs

/-- C14: the Started, AlmostEnded, Stopped and Error handlers each raise exactly
one stream event, carrying the URL of `p`, of kind StreamPlaying, StreamAlmostDone,
StreamStopped and StreamError; Started stores Playing, AlmostEnded leaves the state,
Stopped and Error store Stopped. None of them changes the prepared slot or the
active list; Stopped and Error schedule the removal of `p`, and running it erases
`p` from the active list. -/
theorem lifecycle_handlers_effect (t : Transport) (p : Player) :
    (raised t (t.OnPlaybackStarted p) =
        [Obs.streamEvent StreamPlaying p.url, Obs.lock, Obs.unlock] ∧
      (t.OnPlaybackStarted p).state = PlaybackPlaying ∧
      (t.OnPlaybackStarted p).active = t.active ∧
      (t.OnPlaybackStarted p).nextPlayer = t.nextPlayer) ∧
    (raised t (t.OnPlaybackAlmostEnded p) = [Obs.streamEvent StreamAlmostDone p.url] ∧
      (t.OnPlaybackAlmostEnded p).state = t.state ∧
      (t.OnPlaybackAlmostEnded p).active = t.active ∧
      (t.OnPlaybackAlmostEnded p).nextPlayer = t.nextPlayer) ∧
    (raised t (t.OnPlaybackStopped p) =
        [Obs.streamEvent StreamStopped p.url, Obs.lock, Obs.unlock, Obs.async p] ∧
      (t.OnPlaybackStopped p).state = PlaybackStopped ∧
      (t.OnPlaybackStopped p).active = t.active ∧
      (t.OnPlaybackStopped p).nextPlayer = t.nextPlayer ∧
      ((t.OnPlaybackStopped p).RemoveActive p).active = t.active.erase p) ∧
    (raised t (t.OnPlaybackError p) =
        [Obs.streamEvent StreamError p.url, Obs.lock, Obs.unlock, Obs.async p] ∧
      (t.OnPlaybackError p).state = PlaybackStopped ∧
      (t.OnPlaybackError p).active = t.active ∧
      (t.OnPlaybackError p).nextPlayer = t.nextPlayer ∧
      ((t.OnPlaybackError p).RemoveActive p).active = t.active.erase p) := by
  by_cases h : p ∈ t.active <;>
    simp [OnPlaybackStarted, OnPlaybackAlmostEnded, OnPlaybackStopped, OnPlaybackError,
      RemoveActive, SetPlaybackState, RaiseStreamEvent, emit, raised, h, List.erase_of_not_mem]

/-- C15: no action raises the playback-state-changed signal, so none is ever in
the trace of a transport driven from its constructor by control calls, player
signals and removal tasks; `SetPlaybackState` stores the new state and raises
nothing, whether or not the state differs from the old one. -/
theorem PlaybackEvent_never_raised (t : Transport) (a : Action) (as : List Action)
    (s s' : PlaybackState) :
    Obs.playbackEvent s ∉ raised t (t.step a) ∧
      Obs.playbackEvent s ∉ (init.run as).trace ∧
      (t.SetPlaybackState s').state = s' ∧
      raised t (t.SetPlaybackState s') = [Obs.lock, Obs.unlock] := by
  refine ⟨?_, ?_, ?_, ?_⟩
  · obtain ⟨os, hos, hno⟩ := step_trace t a
    simpa [raised, hos] using hno s
  · exact run_no_playbackEvent as init (by simp [init]) s
  · simp [SetPlaybackState, emit]
  · simp [SetPlaybackState, emit, raised]

/-- C16 fails as stated: on a transport without an active player `SetPosition(5)`
raises no position-changed signal at all. -/
theorem SetPosition_silent_without_player :
    init.active = [] ∧
      raised init (init.SetPosition 5) = [Obs.lock, Obs.unlock] ∧
      Obs.timeChanged 5 ∉ (init.SetPosition 5).trace := by
  decide

/-- C16 as amended: with an active player, `SetPosition(seconds)` sets the position
of the front active player and of no other player and then raises
position-changed(seconds); with no active player it calls nothing and raises
nothing. No data member of the transport changes. -/
theorem SetPosition_effect (t : Transport) (seconds : Double) :
    raised t (t.SetPosition seconds) =
        Obs.lock ::
          (match t.active with
            | [] => []
            | front :: _ => [Obs.setPosition front seconds, Obs.timeChanged seconds]) ++
          [Obs.unlock] ∧
      touched (raised t (t.SetPosition seconds)) =
        (match t.active with
          | [] => []
          | front :: _ => [front]) ∧
      (t.SetPosition seconds).state = t.state ∧
      (t.SetPosition seconds).active = t.active ∧
      (t.SetPosition seconds).nextPlayer = t.nextPlayer ∧
      (t.SetPosition seconds).volume = t.volume := by
  cases h : t.active <;> simp [SetPosition, emit, raised, touched, h]

/-- Every action keeps the held players below the allocator's next address. -/
theorem step_Allocated (t : Transport) (a : Action) (h : t.Allocated) :
    (t.step a).Allocated := by
  obtain ⟨h1, h2⟩ := h
  unfold Allocated
  rw [step_active, step_nextPlayer, step_fresh]
  cases a with
  | start url =>
    simp only [Option.mem_def]
    refine ⟨?_, by simp⟩
    intro p hp
    rcases List.mem_cons.mp hp with rfl | hp
    · simp
    · exact Nat.lt_succ_of_lt (h1 p hp)
  | prepareNextTrack url =>
    refine ⟨fun p hp => Nat.lt_succ_of_lt (h1 p hp), ?_⟩
    intro p hp
    simp only [Option.mem_def, Option.some.injEq] at hp
    subst hp
    simp
  | stop => simp
  | finished p =>
    refine ⟨?_, by simp⟩
    cases hn : t.nextPlayer with
    | none => simpa using h1
    | some q =>
      intro r hr
      rcases List.mem_cons.mp hr with rfl | hr
      · exact h2 r (by simp [hn])
      · exact h1 r hr
  | removeActive p =>
    exact ⟨fun r hr => h1 r (List.mem_of_mem_erase hr), h2⟩
  | pause => exact ⟨h1, h2⟩
  | resume => exact ⟨h1, h2⟩
  | setPosition s => exact ⟨h1, h2⟩
  | setVolume v => exact ⟨h1, h2⟩
  | getPlaybackState => exact ⟨h1, h2⟩
  | started p => exact ⟨h1, h2⟩
  | almostEnded p => exact ⟨h1, h2⟩
  | stopped p => exact ⟨h1, h2⟩
  | error p => exact ⟨h1, h2⟩

/-- Every action keeps the held players distinct, given that they were allocated. -/
theorem step_Distinct (t : Transport) (a : Action) (hA : t.Allocated) (h : Distinct t) :
    Distinct (t.step a) := by
  obtain ⟨h1, h2⟩ := hA
  obtain ⟨d1, d2⟩ := h
  unfold Distinct
  rw [step_active, step_nextPlayer]
  cases a with
  | start url =>
    refine ⟨?_, by simp⟩
    refine List.nodup_cons.mpr ⟨?_, d1⟩
    intro hm
    have := h1 _ hm
    simp at this
  | prepareNextTrack url =>
    refine ⟨d1, ?_⟩
    intro p hp
    simp only [Option.mem_def, Option.some.injEq] at hp
    subst hp
    intro hm
    have := h1 _ hm
    simp at this
  | stop => simp
  | finished p =>
    refine ⟨?_, by simp⟩
    cases hn : t.nextPlayer with
    | none => simpa using d1
    | some q => exact List.nodup_cons.mpr ⟨d2 q (by simp [hn]), d1⟩
  | removeActive p =>
    exact ⟨d1.erase p, fun q hq hm => d2 q hq (List.mem_of_mem_erase hm)⟩
  | pause => exact ⟨d1, d2⟩
  | resume => exact ⟨d1, d2⟩
  | setPosition s => exact ⟨d1, d2⟩
  | setVolume v => exact ⟨d1, d2⟩
  | getPlaybackState => exact ⟨d1, d2⟩
  | started p => exact ⟨d1, d2⟩
  | almostEnded p => exact ⟨d1, d2⟩
  | stopped p => exact ⟨d1, d2⟩
  | error p => exact ⟨d1, d2⟩

/-- Allocation and distinctness hold along every sequence of actions. -/
theorem run_Allocated_Distinct (as : List Action) (t : Transport) (hA : t.Allocated)
    (hD : Distinct t) : (t.run as).Allocated ∧ Distinct (t.run as) := by
  induction as generalizing t with
  | nil => exact ⟨hA, hD⟩
  | cons a as ih =>
    simpa [run] using ih (t.step a) (step_Allocated t a hA) (step_Distinct t a hA hD)

/-- C12: in every state reached from a freshly constructed transport by control
calls, player signals and removal tasks, no player is twice in the active list
and the prepared player, if any, is not in the active list. -/
theorem reachable_players_distinct (as : List Action) :
    (init.run as).active.Nodup ∧
      ∀ q, (init.run as).nextPlayer = some q → q ∉ (init.run as).active := by
  have h := (run_Allocated_Distinct as init (by simp [Allocated, init])
    (by simp [Distinct, init])).2
  exact ⟨h.1, fun q hq => h.2 q (by simp [hq])⟩

/-- Deletes with the lock not held are reported as such. -/
theorem deletesByLock_map_delete (l : List Player) (rest : List Obs) :
    deletesByLock 0 (l.map Obs.delete ++ rest) =
      l.map (fun p => (p, false)) ++ deletesByLock 0 rest := by
  induction l with
  | nil => rfl
  | cons p l ih => simp [deletesByLock, ih]

/-- C20 fails as stated: `RemoveActive` deletes the finished player, `Stop` the
prepared player and `Start` the stale prepared player while the state lock is
held; only the active players detached by `Stop` are deleted without it. -/
theorem delete_under_lock :
    deletesByLock 0 (raised playingA (playingA.RemoveActive { ptr := 0, url := "a.mp3" })) =
        [({ ptr := 0, url := "a.mp3" }, true)] ∧
      deletesByLock 0 (raised pausedPrepared pausedPrepared.Stop) =
        [({ ptr := 1, url := "b.mp3" }, true), ({ ptr := 0, url := "a.mp3" }, false)] ∧
      deletesByLock 0 (raised pausedPrepared (pausedPrepared.Start "c.mp3")) =
        [({ ptr := 1, url := "b.mp3" }, true)] := by
  decide

/-- C20 as amended: `Stop` deletes the active players it detached after the lock
is released, in list order; the prepared player is deleted by `Stop` while the
lock is held, and so are a stale prepared player by `StartWithPlayer` and the
finished player by `RemoveActive`. -/
theorem deletes_and_the_lock (t : Transport) (p : Player) :
    deletesByLock 0 (raised t t.Stop) =
        t.nextPlayer.toList.map (fun q => (q, true)) ++ t.active.map (fun q => (q, false)) ∧
      deletesByLock 0 (raised t (t.StartWithPlayer (some p))) =
        (if some p = t.nextPlayer then [] else t.nextPlayer.toList.map (fun q => (q, true))) ∧
      deletesByLock 0 (raised t (t.RemoveActive p)) =
        (if p ∈ t.active then [(p, true)] else []) := by
  refine ⟨?_, ?_, ?_⟩
  · cases hn : t.nextPlayer <;>
      simp [Stop, SetPlaybackState, emit, emits, deletePtr, raised, hn, deletesByLock,
        deletesByLock_map_delete]
  · cases hn : t.nextPlayer with
    | none =>
      simp [StartWithPlayer, RaiseStreamEvent, emit, deletePtr, raised, hn, deletesByLock]
    | some q =>
      by_cases hq : p = q <;>
        simp [StartWithPlayer, RaiseStreamEvent, emit, deletePtr, raised, hn, hq, deletesByLock]
  · by_cases hp : p ∈ t.active <;> simp [RemoveActive, emit, raised, hp, deletesByLock]

/-- The `float` quotient of 10 and 100 is the `float` next to one tenth. -/
theorem floatDiv_10_100 : Double.floatDiv 10 100 = Double.fin (13421773 / 134217728) := by
  have h : Double.floatDiv 10 100 = Double.fin (13421773 * 2 ^ (-27 : Int)) := by rfl
  rw [h]
  norm_num

/-- The `float` quotient of 50 and 100 is one half. -/
theorem floatDiv_50_100 : Double.floatDiv 50 100 = Double.fin (1 / 2) := by
  have h : Double.floatDiv 50 100 = Double.fin (8388608 * 2 ^ (-24 : Int)) := by rfl
  rw [h]
  norm_num

/-- C18 fails as stated: for the command `v 10` the window does not call
`Transport::SetVolume` with 10 / 100 but with the `float` quotient
13421773 / 134217728 (0.100000001490116...), which is what the transport then
stores. -/
theorem volume_command_divides_in_float :
    digitsEnv.readFloat "10" = (true, 10) ∧
      ((CommandWindow.new init).SetVolume digitsEnv ["10"]).transport =
        init.SetVolume (Double.fin (13421773 / 134217728)) ∧
      ((CommandWindow.new init).SetVolume digitsEnv ["10"]).transport.volume =
        Double.fin (13421773 / 134217728) ∧
      (init.SetVolume (Double.fin (10 / 100))).volume = Double.fin (1 / 10) ∧
      ((CommandWindow.new init).SetVolume digitsEnv ["10"]).transport.volume ≠
        (init.SetVolume (Double.fin (10 / 100))).volume := by
  have hcall : ((CommandWindow.new init).SetVolume digitsEnv ["10"]).transport =
      init.SetVolume (Double.fin (13421773 / 134217728)) := by
    have h : ((CommandWindow.new init).SetVolume digitsEnv ["10"]).transport =
        init.SetVolume (Double.floatDiv 10 100) := by rfl
    rw [h, floatDiv_10_100]
  have hvol : ∀ q : ℚ, (init.SetVolume (Double.fin q)).volume = Double.fin (max 0 (min 1 q)) := by
    intro q
    rw [SetVolume_volume, clamp_fin]
  have h1 : (init.SetVolume (Double.fin (13421773 / 134217728))).volume =
      Double.fin (13421773 / 134217728) := by
    rw [hvol]
    norm_num
  have h2 : (init.SetVolume (Double.fin (10 / 100))).volume = Double.fin (1 / 10) := by
    rw [hvol]
    norm_num
  refine ⟨by decide, hcall, by rw [hcall, h1], h2, ?_⟩
  rw [hcall, h1, h2]
  intro e
  have e2 := Double.fin.inj e
  norm_num at e2

/-- C18 as amended: `Seek(args)` calls `Transport::SetPosition(x)` exactly when
`args` is not empty and its first entry is read as the number `x`, and
`SetVolume(args)` calls `Transport::SetVolume` exactly when `args` is not empty
and its first entry is read as a number `n`, with the `float` quotient of `n` and
100 (one half for 50, 13421773 / 134217728 for 10); otherwise the window and its
transport are left as they are. A call of either transport method always extends
the transport's trace. -/
theorem Seek_SetVolume_need_a_number (w : CommandWindow) (env : Env) (args : List String)
    (x : Double) :
    w.Seek env args =
        (match args with
          | [] => w
          | arg0 :: _ =>
            if (env.readDouble arg0).1 then
              { w with transport := w.transport.SetPosition (env.readDouble arg0).2 }
            else w) ∧
      w.SetVolume env args =
        (match args with
          | [] => w
          | arg0 :: _ =>
            if (env.readFloat arg0).1 then
              { w with
                transport := w.transport.SetVolume (Double.floatDiv (env.readFloat arg0).2 100) }
            else w) ∧
      Double.floatDiv 50 100 = Double.fin (1 / 2) ∧
      Double.floatDiv 10 100 = Double.fin (13421773 / 134217728) ∧
      w.transport.SetPosition x ≠ w.transport ∧
      w.transport.SetVolume x ≠ w.transport := by
  refine ⟨?_, ?_, floatDiv_50_100, floatDiv_10_100, ?_, ?_⟩
  · cases args with
    | nil => rfl
    | cons a rest => simp [CommandWindow.Seek, tostr]
  · cases args with
    | nil => rfl
    | cons a rest => simp [CommandWindow.SetVolume, CommandWindow.SetVolumeTo, tostr]
  · intro e
    have hlen := congrArg (fun t => t.trace.length) e
    cases h : w.transport.active <;> simp [SetPosition, emit, h] at hlen
  · intro e
    have hlen := congrArg (fun t => t.trace.length) e
    cases h : w.transport.active <;>
      cases hv : Double.ne w.transport.volume (Double.max 0 (Double.min 1 x)) <;>
      simp [SetVolume, emit, h, hv] at hlen

/-- C19 at the failing input: the help text lists `st: stop playing`, but
`ProcessCommand("st")` returns false and leaves the window and its transport as
they are, and `Write` then reports `st` as an illegal command; `Stop` is reached by
`s` and `stop` only. The other commands of the help text are accepted. -/
theorem ProcessCommand_rejects_st (w : CommandWindow) (env : Env) :
    WinObs.writeLine "  st: stop playing" ∈ w.Help.log ∧
      w.ProcessCommand env "st" = (false, w) ∧
      (CommandWindow.Write { w with buffer := "st" } env "^J").log =
        w.log ++ [WinObs.writeLine "> st\n",
          WinObs.writeLine "illegal command: \x27st\x27\n"] ∧
      (CommandWindow.Write { w with buffer := "st" } env "^J").transport = w.transport ∧
      w.ProcessCommand env "s" = (true, w.Stop) ∧
      w.ProcessCommand env "stop" = (true, w.Stop) ∧
      (w.ProcessCommand env "pl a.mp3").1 = true ∧
      (w.ProcessCommand env "pa").1 = true ∧
      (w.ProcessCommand env "plugins").1 = true ∧
      (w.ProcessCommand env "v 50").1 = true ∧
      (w.ProcessCommand env "sk 10").1 = true ∧
      (w.ProcessCommand env "addir music").1 = true ∧
      (w.ProcessCommand env "rmdir music").1 = true ∧
      (w.ProcessCommand env "lsdirs").1 = true ∧
      (w.ProcessCommand env "rescan").1 = true := by
  refine ⟨?_, rfl, ?_, rfl, rfl, rfl, rfl, rfl, rfl, rfl, rfl, rfl, rfl, rfl, rfl⟩
  · simp [CommandWindow.Help, CommandWindow.WriteLine]
  · have h : (CommandWindow.Write { w with buffer := "st" } env "^J").log =
        (w.log ++ [WinObs.writeLine "> st\n"]) ++
          [WinObs.writeLine "illegal command: \x27st\x27\n"] := rfl
    rw [h, List.append_assoc]
    rfl

/-- The paused flag after a run of pause commands is the old flag flipped once per
command. -/
theorem pauseCommands_paused (fs : List (Transport → Transport)) (w : CommandWindow) :
    (pauseCommands w fs).paused = xor w.paused (decide (fs.length % 2 = 1)) := by
  induction fs generalizing w with
  | nil => simp [pauseCommands]
  | cons f fs ih =>
    rw [pauseCommands, ih]
    have hflip : (CommandWindow.Pause { w with transport := f w.transport }).paused =
        !w.paused := by
      cases hp : w.paused <;> simp [CommandWindow.Pause, hp]
    rw [hflip, List.length_cons]
    rcases Nat.mod_two_eq_zero_or_one fs.length with h | h <;>
      cases hp : w.paused <;> simp [h, Nat.succ_mod_two_eq_zero_iff.mpr, Nat.add_mod]

/-- C22: a pause command calls `Transport::Pause` when the paused flag is clear and
`Transport::Resume` when it is set, and flips the flag whatever the transport
returns; both `pa` and `pause` are this command. From a new window the flag after
n pause commands is set exactly when n is odd, whatever happened to the transport
in between, so the next command calls `Pause` for even n and `Resume` for odd n.
On a fresh transport the first pause command sets the flag although
`Transport::Pause` returns false and the playback state stays Stopped. -/
theorem Pause_alternates (w : CommandWindow) (env : Env) (t : Transport)
    (fs : List (Transport → Transport)) :
    w.Pause.paused = (!w.paused) ∧
      w.Pause.transport = (if w.paused then w.transport.Resume.2 else w.transport.Pause.2) ∧
      w.Pause.buffer = w.buffer ∧ w.Pause.log = w.log ∧
      w.ProcessCommand env "pa" = (true, w.Pause) ∧
      w.ProcessCommand env "pause" = (true, w.Pause) ∧
      (CommandWindow.new t).paused = false ∧
      (pauseCommands (CommandWindow.new t) fs).paused = decide (fs.length % 2 = 1) ∧
      (pauseCommands (CommandWindow.new t) fs).Pause.transport =
        (if fs.length % 2 = 1 then (pauseCommands (CommandWindow.new t) fs).transport.Resume.2
          else (pauseCommands (CommandWindow.new t) fs).transport.Pause.2) ∧
      init.Pause.1 = false ∧
      (CommandWindow.new init).Pause.paused = true ∧
      (CommandWindow.new init).Pause.transport.state = PlaybackStopped := by
  have hflag : (pauseCommands (CommandWindow.new t) fs).paused =
      decide (fs.length % 2 = 1) := by
    rw [pauseCommands_paused]
    simp [CommandWindow.new, CommandWindow.WriteLine]
  refine ⟨?_, ?_, ?_, ?_, rfl, rfl, rfl, hflag, ?_, by decide, by decide, by decide⟩
  · cases hp : w.paused <;> simp [CommandWindow.Pause, hp]
  · cases hp : w.paused <;> simp [CommandWindow.Pause, hp]
  · cases hp : w.paused <;> simp [CommandWindow.Pause, hp]
  · cases hp : w.paused <;> simp [CommandWindow.Pause, hp]
  · by_cases hodd : fs.length % 2 = 1
    · have hp : (pauseCommands (CommandWindow.new t) fs).paused = true := by
        rw [hflag]; simp [hodd]
      simp [CommandWindow.Pause, hp, hodd]
    · have hp : (pauseCommands (CommandWindow.new t) fs).paused = false := by
        rw [hflag]; simp [hodd]
      simp [CommandWindow.Pause, hp, hodd]

/-- The index names the last entry equal to `x`, or is 0 when no entry equals `x`. -/
theorem lastMatch_step (x str : String) (e : List String) (i : Nat)
    (h : (x ∉ e → i = 0) ∧
      (x ∈ e → e[i]? = some x ∧ ∀ j, i < j → e[j]? ≠ some x)) :
    (x ∉ e ++ [str] → (if x = str then (e ++ [str]).length - 1 else i) = 0) ∧
      (x ∈ e ++ [str] →
        (e ++ [str])[if x = str then (e ++ [str]).length - 1 else i]? = some x ∧
          ∀ j, (if x = str then (e ++ [str]).length - 1 else i) < j →
            (e ++ [str])[j]? ≠ some x) := by
  obtain ⟨h0, h1⟩ := h
  by_cases hx : x = str
  · subst hx
    simp only [if_true, List.length_append, List.length_singleton, Nat.add_sub_cancel]
    refine ⟨fun hn => absurd (by simp) hn, fun _ => ⟨by simp, ?_⟩⟩
    intro j hj
    rw [List.getElem?_eq_none (by simp; omega)]
    simp
  · simp only [if_neg hx]
    constructor
    · intro hn
      exact h0 (fun hm => hn (List.mem_append_left _ hm))
    · intro hm
      have hme : x ∈ e := by
        rcases List.mem_append.mp hm with hm | hm
        · exact hm
        · exact absurd (List.mem_singleton.mp hm) hx
      obtain ⟨hi, hlast⟩ := h1 hme
      have hlt : i < e.length := by
        by_contra hge
        rw [List.getElem?_eq_none (by omega)] at hi
        simp at hi
      refine ⟨by rw [List.getElem?_append_left hlt]; exact hi, ?_⟩
      intro j hj
      by_cases hjl : j < e.length
      · rw [List.getElem?_append_left hjl]
        exact hlast j hj
      · by_cases hje : j = e.length
        · subst hje
          simp
          exact fun h => hx h.symm
        · rw [List.getElem?_eq_none (by simp; omega)]
          simp

/-- What `Filter` with the chooser's lambda computes from any starting point: the
kept values and the adapter both grow by the values that are not blacklisted, and
the index keeps naming the last entry equal to `x`. -/
theorem Filter_fold (x : String) (values kept : List String) (s : ChooserVars)
    (h : (x ∉ s.entries → s.index = 0) ∧
      (x ∈ s.entries → s.entries[s.index]? = some x ∧
        ∀ j, s.index < j → s.entries[j]? ≠ some x)) :
    (values.foldl
        (fun acc value =>
          let (k, s) := keepCategory x acc.2 value
          (if k then acc.1 ++ [value] else acc.1, s))
        (kept, s)).1 = kept ++ values.filter (fun v => decide (v ∉ BLACKLIST)) ∧
      (values.foldl
        (fun acc value =>
          let (k, s) := keepCategory x acc.2 value
          (if k then acc.1 ++ [value] else acc.1, s))
        (kept, s)).2.entries = s.entries ++ values.filter (fun v => decide (v ∉ BLACKLIST)) ∧
      (x ∉ (values.foldl
          (fun acc value =>
            let (k, s) := keepCategory x acc.2 value
            (if k then acc.1 ++ [value] else acc.1, s))
          (kept, s)).2.entries →
        (values.foldl
          (fun acc value =>
            let (k, s) := keepCategory x acc.2 value
            (if k then acc.1 ++ [value] else acc.1, s))
          (kept, s)).2.index = 0) ∧
      (x ∈ (values.foldl
          (fun acc value =>
            let (k, s) := keepCategory x acc.2 value
            (if k then acc.1 ++ [value] else acc.1, s))
          (kept, s)).2.entries →
        (values.foldl
          (fun acc value =>
            let (k, s) := keepCategory x acc.2 value
            (if k then acc.1 ++ [value] else acc.1, s))
          (kept, s)).2.entries[(values.foldl
            (fun acc value =>
              let (k, s) := keepCategory x acc.2 value
              (if k then acc.1 ++ [value] else acc.1, s))
            (kept, s)).2.index]? = some x ∧
          ∀ j, (values.foldl
            (fun acc value =>
              let (k, s) := keepCategory x acc.2 value
              (if k then acc.1 ++ [value] else acc.1, s))
            (kept, s)).2.index < j →
            (values.foldl
              (fun acc value =>
                let (k, s) := keepCategory x acc.2 value
                (if k then acc.1 ++ [value] else acc.1, s))
              (kept, s)).2.entries[j]? ≠ some x) := by
  induction values generalizing kept s with
  | nil => simpa using h
  | cons v vs ih =>
    rw [List.foldl_cons]
    by_cases hb : v ∈ BLACKLIST
    · have hstep : keepCategory x s v = (false, s) := by simp [keepCategory, hb]
      simp only [hstep]
      have := ih kept s h
      simpa [List.filter_cons, hb] using this
    · have hstep : keepCategory x s v =
          (true, { entries := s.entries ++ [v],
                   index := if x = v then (s.entries ++ [v]).length - 1 else s.index }) := by
        by_cases hx : x = v <;> simp [keepCategory, hb, hx]
      simp only [hstep]
      have := ih (kept ++ [v])
        { entries := s.entries ++ [v],
          index := if x = v then (s.entries ++ [v]).length - 1 else s.index }
        (lastMatch_step x v s.entries s.index h)
      simpa [List.filter_cons, hb] using this

/-- C21: the entries `ShowCategoryChooser` adds to the list adapter and the filtered
list its callback reads are the same sequence, the query result without the
blacklisted names `bitrate`, `channels`, `lyrics` and `path_id`, in query order, so
a selected index names the same category in both; the preselected index is 0 when
no entry equals the previously selected name, and otherwise it is the position
of the last entry equal to it. -/
theorem ShowCategoryChooser_entries (LAST_SELECTED : String) (result : List String) :
    (ShowCategoryChooser LAST_SELECTED result).adapter =
        result.filter (fun v => decide (v ∉ BLACKLIST)) ∧
      (ShowCategoryChooser LAST_SELECTED result).filtered =
        result.filter (fun v => decide (v ∉ BLACKLIST)) ∧
      (∀ v, v ∈ (ShowCategoryChooser LAST_SELECTED result).adapter ↔
        v ∈ result ∧ v ≠ "bitrate" ∧ v ≠ "channels" ∧ v ≠ "lyrics" ∧ v ≠ "path_id") ∧
      (∀ index, itemSelected (ShowCategoryChooser LAST_SELECTED result) index =
        (ShowCategoryChooser LAST_SELECTED result).adapter[index]?) ∧
      (LAST_SELECTED ∉ (ShowCategoryChooser LAST_SELECTED result).adapter →
        (ShowCategoryChooser LAST_SELECTED result).selectedIndex = 0) ∧
      (LAST_SELECTED ∈ (ShowCategoryChooser LAST_SELECTED result).adapter →
        (ShowCategoryChooser LAST_SELECTED result).adapter[
            (ShowCategoryChooser LAST_SELECTED result).selectedIndex]? = some LAST_SELECTED ∧
          ∀ j, (ShowCategoryChooser LAST_SELECTED result).selectedIndex < j →
            (ShowCategoryChooser LAST_SELECTED result).adapter[j]? ≠ some LAST_SELECTED) := by
  obtain ⟨h1, h2, h3, h4⟩ :=
    Filter_fold LAST_SELECTED result [] { entries := [], index := 0 } (by simp)
  simp only [List.nil_append] at h1 h2
  have ha : (ShowCategoryChooser LAST_SELECTED result).adapter =
      result.filter (fun v => decide (v ∉ BLACKLIST)) := h2
  have hf : (ShowCategoryChooser LAST_SELECTED result).filtered =
      result.filter (fun v => decide (v ∉ BLACKLIST)) := h1
  refine ⟨ha, hf, ?_, ?_, h3, h4⟩
  · intro v
    rw [ha]
    simp [BLACKLIST]
  · intro index
    rw [itemSelected, hf, ha]

end Musikcube
